import Mathlib

/-!
Verification of the element module of satori-python (`src/satori/element.py`):
the typed element tree, its deserialization from the generic parser tree
(`transform` / the `from_raw` family) and its serialization to canonical
markup (`__str__` per variant), together with the `Resource.of` construction
helper.

Attribute and field values are the markup scalars of the generic tree
(string, integer, boolean, null); Python `None` is `Val.null`.  Floating
point numbers are not modelled.  Python dictionaries are ordered association
lists with unique keys; `setattr` on an existing key updates it in place,
on a new key appends it.
-/

/-- A scalar attribute value of the generic attributed tree, or a Python
field value: string, number, boolean or null (Python `None`). -/
inductive Val where
  | null : Val
  | bool : Bool → Val
  | int : Int → Val
  | str : String → Val
deriving DecidableEq, Repr

/-- Python truthiness of a scalar value (`if value:`). -/
def Val.truthy : Val → Bool
  | .null => false
  | .bool b => b
  | .int n => n != 0
  | .str s => s != ""

/-- Python `str(value)` for a scalar value. -/
def pyStr : Val → String
  | .null => "None"
  | .bool true => "True"
  | .bool false => "False"
  | .int n => toString n
  | .str s => s

/-- Modelled from the spec: the string-escaping primitive of the parser module
(`satori/parser.py`, not under `src/`), an external collaborator "assumed to
escape the markup's reserved characters"; per spec section 6 at minimum
the characters ampersand, less-than, greater-than and double quote. -/
def escapeChar (c : Char) : String :=
  if c = '&' then "&amp;"
  else if c = '<' then "&lt;"
  else if c = '>' then "&gt;"
  else if c = '"' then "&quot;"
  else String.singleton c

/-- Modelled from the spec: escaping of a whole string, character by character. -/
def escape (s : String) : String :=
  String.join (s.data.map escapeChar)

/-- Ordered-dictionary lookup: the value of the first (in a Python dict, only)
pair with the given key. -/
def lookupTab {α : Type} : List (String × α) → String → Option α
  | [], _ => Option.none
  | p :: ps, k => if p.1 = k then some p.2 else lookupTab ps k

/-- Dictionary lookup with the Python dataclass default `None` for a missing key. -/
def lookupD (attrs : List (String × Val)) (k : String) : Val :=
  (lookupTab attrs k).getD Val.null

/-- Python `setattr` on the instance dictionary: update an existing key in
place, append a new key at the end. -/
def setAttrExt (ext : List (String × Val)) (k : String) (v : Val) : List (String × Val) :=
  if ext.any (fun p => p.1 = k) then ext.map (fun p => if p.1 = k then (k, v) else p)
  else ext ++ [(k, v)]

/-- The extension-attribute pass of the generic `Element.from_raw`: the raw
attributes whose key is not a dataclass field name, in their original order. -/
def extFilter (attrs : List (String × Val)) (fs : List String) : List (String × Val) :=
  attrs.filter (fun p => !(fs.contains p.1))

/-- Standard base64 alphabet, as used by `base64.b64encode`. -/
def b64Alphabet : String :=
  "ABCDEFGHIJKLMNOPQRSTUVWXYZabcdefghijklmnopqrstuvwxyz0123456789+/"

/-- The base64 digit for a 6-bit group. -/
def b64Char (n : Nat) : Char :=
  b64Alphabet.data.getD n 'A'

/-- `base64.b64encode` on a byte sequence (bytes as naturals below 256),
with the standard padding. -/
def b64encode : List Nat → String
  | [] => ""
  | [a] =>
    String.mk [b64Char (a / 4), b64Char (a % 4 * 16)] ++ "=="
  | [a, b] =>
    String.mk [b64Char (a / 4), b64Char (a % 4 * 16 + b / 16), b64Char (b % 16 * 4)] ++ "="
  | a :: b :: c :: rest =>
    String.mk [b64Char (a / 4), b64Char (a % 4 * 16 + b / 16),
      b64Char (b % 16 * 4 + c / 64), b64Char (c % 64)] ++ b64encode rest

/-- Modelled from the spec: a node of the generic attributed tree produced by
the external markup parser (`RawElement` of `satori/parser.py`, not under
`src/`); spec section 3: tag, ordered attribute mapping, ordered children. -/
inductive RawElement where
  | mk (type : String) (attrs : List (String × Val)) (children : List RawElement)

/-- The node's tag name (`elem.type`). -/
def RawElement.type : RawElement → String
  | .mk t _ _ => t

/-- The node's attribute mapping (`elem.attrs`). -/
def RawElement.attrs : RawElement → List (String × Val)
  | .mk _ a _ => a

/-- The node's child nodes (`elem.children`). -/
def RawElement.children : RawElement → List RawElement
  | .mk _ _ c => c

/-- The style-wrapper subclasses of `Style` (each a distinct Python class
with its own render template). -/
inductive StyleKind where
  | bold | italic | underline | strikethrough | spoiler
  | code | superscript | subscript | br | paragraph
deriving DecidableEq, Repr

/-- The typed element tree.  Each constructor carries the variant's dataclass
fields in declaration order followed by the extension attributes added by
`setattr` during deserialization (the instance dictionary beyond the fields).
`message` covers both `Message` and `Quote` (`isQuote` distinguishes the
class, hence the tag); its `content` field is `None` when `present` is false.
`custom` carries `type`, the `attrs` dictionary and the optional `children`
list (`present` false meaning `None`). -/
inductive Element where
  | text (text : Val) (ext : List (String × Val))
  | atE (id name role type : Val) (ext : List (String × Val))
  | sharp (id name : Val) (ext : List (String × Val))
  | link (url display : Val) (ext : List (String × Val))
  | resource (src cache timeout : Val) (ext : List (String × Val))
  | img (src cache timeout width height : Val) (ext : List (String × Val))
  | audio (src cache timeout : Val) (ext : List (String × Val))
  | video (src cache timeout : Val) (ext : List (String × Val))
  | file (src cache timeout : Val) (ext : List (String × Val))
  | style (kind : StyleKind) (text : Val) (ext : List (String × Val))
  | message (isQuote : Bool) (id forward : Val) (present : Bool)
      (content : List Element) (ext : List (String × Val))
  | author (id nickname avatar : Val) (ext : List (String × Val))
  | custom (type : String) (attrs : List (String × Val)) (present : Bool)
      (children : List Element)
  | raw (content : Val)

/-- `At.all(here)`: `At(type="here" if here else "all")`; the other three
dataclass fields keep their `None` defaults. -/
def At.all (here : Bool) : Element :=
  .atE Val.null Val.null Val.null (.str (if here then "here" else "all")) []

/-- The `Resource` subclass `of` is invoked on (the Python `cls`). -/
inductive ResTag where
  | resource | image | audio | video | file
deriving DecidableEq, Repr

/-- Python `str(cls)` payload: the class name. -/
def ResTag.clsName : ResTag → String
  | .resource => "Resource"
  | .image => "Image"
  | .audio => "Audio"
  | .video => "Video"
  | .file => "File"

/-- `cls(**data)` at the end of `Resource.of`: `src` as computed, `cache` and
`timeout` from the keyword arguments when given (dataclass default `None`
otherwise); `Image`'s `width`/`height` keep their `None` defaults. -/
def mkRes (tag : ResTag) (src : Val) (cache : Option Bool) (timeout : Option String) : Element :=
  let c := match cache with
    | some b => Val.bool b
    | Option.none => Val.null
  let t := match timeout with
    | some s => Val.str s
    | Option.none => Val.null
  match tag with
  | .resource => .resource src c t []
  | .image => .img src c t Val.null Val.null []
  | .audio => .audio src c t []
  | .video => .video src c t []
  | .file => .file src c t []

/-- Model of `pathlib.Path.as_uri` for absolute POSIX paths containing no
character that needs percent-encoding: the file-scheme URI; a relative path
raises `ValueError`. -/
def as_uri (p : String) : Except String String :=
  if p.startsWith "/" then .ok ("file://" ++ p)
  else .error "ValueError: relative path cannot be expressed as a file URI"

/-- Python truthiness of an optional string (`elif path:` / `and mime`). -/
def optStrTruthy : Option String → Bool
  | some s => s != ""
  | Option.none => false

/-- Python truthiness of an optional byte sequence (`elif raw ...`). -/
def bytesTruthy : Option (List Nat) → Bool
  | some b => !b.isEmpty
  | Option.none => false

/-- `Resource.of(url, path, raw, mime, extra, cache, timeout)`.  The source
initializes `data = {"extra": extra}` but every branch either reassigns
`data` or raises, so `extra` is never stored; the parameter is kept for
signature fidelity and is unused.  The branch order is the source's
`if url is not None / elif path / elif raw and mime / else raise`. -/
def Resource.of (tag : ResTag) (url : Option String) (path : Option String)
    (raw : Option (List Nat)) (mime : Option String)
    (extra : Option (List (String × Val))) (cache : Option Bool)
    (timeout : Option String) : Except String Element :=
  match url with
  | some u => .ok (mkRes tag (Val.str u) cache timeout)
  | Option.none =>
    if optStrTruthy path then
      match as_uri (path.getD "") with
      | .ok uri => .ok (mkRes tag (.str uri) cache timeout)
      | .error e => .error e
    else if bytesTruthy raw && optStrTruthy mime then
      .ok (mkRes tag
        (.str ("data:" ++ mime.getD "" ++ ";base64," ++ b64encode (raw.getD [])))
        cache timeout)
    else
      .error ("<class \x27satori.element." ++ tag.clsName
        ++ "\x27> need at least one of url, path and raw")

/-- Dataclass field names of `Text` (the fields of `Style` and its
subclasses are the same single field). -/
def textFields : List String := ["text"]

/-- Dataclass field names of `At`, in declaration order. -/
def atFields : List String := ["id", "name", "role", "type"]

/-- Dataclass field names of `Sharp`. -/
def sharpFields : List String := ["id", "name"]

/-- Dataclass field names of `Author`. -/
def authorFields : List String := ["id", "nickname", "avatar"]

/-- Dataclass field names of `Resource` and of `Audio`/`Video`/`File`
(the `extra` InitVar is not a field). -/
def resourceFields : List String := ["src", "cache", "timeout"]

/-- Dataclass field names of `Image`. -/
def imageFields : List String := ["src", "cache", "timeout", "width", "height"]

/-- Dataclass field names of `Message` (and `Quote`). -/
def msgFields : List String := ["id", "forward", "content"]

/-- Generic `Element.from_raw` instantiated at `Text`: `text` is a required
constructor argument (a missing key is a `TypeError` from `cls(**attrs)`),
the remaining attributes are the extension pass. -/
def Text.from_raw (raw : RawElement) : Except String Element :=
  match lookupTab raw.attrs "text" with
  | some t => .ok (.text t (extFilter raw.attrs textFields))
  | Option.none => .error "TypeError: missing required argument text"

/-- Generic `Element.from_raw` instantiated at `At`: every field is optional
with default `None`. -/
def At.from_raw (raw : RawElement) : Except String Element :=
  .ok (.atE (lookupD raw.attrs "id") (lookupD raw.attrs "name")
    (lookupD raw.attrs "role") (lookupD raw.attrs "type")
    (extFilter raw.attrs atFields))

/-- Generic `Element.from_raw` instantiated at `Sharp`: `id` required. -/
def Sharp.from_raw (raw : RawElement) : Except String Element :=
  match lookupTab raw.attrs "id" with
  | some i => .ok (.sharp i (lookupD raw.attrs "name") (extFilter raw.attrs sharpFields))
  | Option.none => .error "TypeError: missing required argument id"

/-- Generic `Element.from_raw` instantiated at `Author`: `id` required. -/
def Author.from_raw (raw : RawElement) : Except String Element :=
  match lookupTab raw.attrs "id" with
  | some i => .ok (.author i (lookupD raw.attrs "nickname")
      (lookupD raw.attrs "avatar") (extFilter raw.attrs authorFields))
  | Option.none => .error "TypeError: missing required argument id"

/-- Generic `Element.from_raw` instantiated at `Image`: `src` required. -/
def Image.from_raw (raw : RawElement) : Except String Element :=
  match lookupTab raw.attrs "src" with
  | some s => .ok (.img s (lookupD raw.attrs "cache") (lookupD raw.attrs "timeout")
      (lookupD raw.attrs "width") (lookupD raw.attrs "height")
      (extFilter raw.attrs imageFields))
  | Option.none => .error "TypeError: missing required argument src"

/-- Generic `Element.from_raw` instantiated at `Audio`: `src` required. -/
def Audio.from_raw (raw : RawElement) : Except String Element :=
  match lookupTab raw.attrs "src" with
  | some s => .ok (.audio s (lookupD raw.attrs "cache") (lookupD raw.attrs "timeout")
      (extFilter raw.attrs resourceFields))
  | Option.none => .error "TypeError: missing required argument src"

/-- Generic `Element.from_raw` instantiated at `Video`: `src` required. -/
def Video.from_raw (raw : RawElement) : Except String Element :=
  match lookupTab raw.attrs "src" with
  | some s => .ok (.video s (lookupD raw.attrs "cache") (lookupD raw.attrs "timeout")
      (extFilter raw.attrs resourceFields))
  | Option.none => .error "TypeError: missing required argument src"

/-- Generic `Element.from_raw` instantiated at `File`: `src` required. -/
def File.from_raw (raw : RawElement) : Except String Element :=
  match lookupTab raw.attrs "src" with
  | some s => .ok (.file s (lookupD raw.attrs "cache") (lookupD raw.attrs "timeout")
      (extFilter raw.attrs resourceFields))
  | Option.none => .error "TypeError: missing required argument src"

/-- Generic `Element.from_raw` instantiated at `Message` (and `Quote`).
Attribute values are markup scalars (spec section 3), so a raw `content`
attribute can never be an element list; the model leaves `content` absent in
that case and, matching the dataclass field filter of the source, keeps the
key out of the extension pass. -/
def Message.from_raw (isQ : Bool) (raw : RawElement) : Element :=
  .message isQ (lookupD raw.attrs "id") (lookupD raw.attrs "forward") false []
    (extFilter raw.attrs msgFields)

/-- One `setattr(res, k, v)` step of the loop at the end of the overriding
`Link.from_raw`: `href` is skipped, `url` and `display` are dataclass fields
and are overwritten, any other key lands in the extension attributes.
State: (url, display, extension attributes). -/
def linkStep (s : Val × Val × List (String × Val)) (p : String × Val) :
    Val × Val × List (String × Val) :=
  if p.1 = "href" then s
  else if p.1 = "url" then (p.2, s.2.1, s.2.2)
  else if p.1 = "display" then (s.1, p.2, s.2.2)
  else (s.1, s.2.1, setAttrExt s.2.2 p.1 p.2)

/-- The overriding `Link.from_raw`: `url` from the required `href` attribute
(`KeyError` if absent), `display` from the first child's `text` attribute when
there are children (else `None`), then every non-`href` attribute applied by
`setattr` in order. -/
def Link.from_raw (raw : RawElement) : Except String Element :=
  match lookupTab raw.attrs "href" with
  | Option.none => .error "KeyError: \x27href\x27"
  | some u =>
    let d : Except String Val :=
      match raw.children with
      | [] => .ok Val.null
      | c :: _ =>
        match lookupTab c.attrs "text" with
        | some t => .ok t
        | Option.none => .error "KeyError: \x27text\x27"
    match d with
    | .error e => .error e
    | .ok d0 =>
      let s := raw.attrs.foldl linkStep (u, d0, [])
      .ok (.link s.1 s.2.1 s.2.2)

/-- One `setattr(res, k, v)` step of the loop in the overriding
`Style.from_raw`: `text` is the single dataclass field and is overwritten,
any other key lands in the extension attributes.
State: (text, extension attributes). -/
def styleStep (s : Val × List (String × Val)) (p : String × Val) :
    Val × List (String × Val) :=
  if p.1 = "text" then (p.2, s.2) else (s.1, setAttrExt s.2 p.1 p.2)

/-- The overriding `Style.from_raw` (shared by every style subclass through
`cls`): `text` from the first child's `text` attribute (`IndexError` when
there are no children, `KeyError` when the first child has no `text`), then
every node attribute applied by `setattr` in order. -/
def Style.from_raw (k : StyleKind) (raw : RawElement) : Except String Element :=
  match raw.children with
  | [] => .error "IndexError: list index out of range"
  | c :: _ =>
    match lookupTab c.attrs "text" with
    | some t =>
      let s := raw.attrs.foldl styleStep (t, [])
      .ok (.style k s.1 s.2)
    | Option.none => .error "KeyError: \x27text\x27"

/-- The classes appearing as values of `ELEMENT_TYPE_MAP`. -/
inductive ElemCls where
  | text | atE | sharp | img | audio | video | file | author
deriving DecidableEq, Repr

/-- `ELEMENT_TYPE_MAP`, in source order. -/
def ELEMENT_TYPE_MAP : List (String × ElemCls) :=
  [("text", .text), ("at", .atE), ("sharp", .sharp), ("img", .img),
   ("audio", .audio), ("video", .video), ("file", .file), ("author", .author)]

/-- `seg_cls.from_raw(elem)` for a class drawn from `ELEMENT_TYPE_MAP`. -/
def clsFromRaw (cls : ElemCls) (raw : RawElement) : Except String Element :=
  match cls with
  | .text => Text.from_raw raw
  | .atE => At.from_raw raw
  | .sharp => Sharp.from_raw raw
  | .img => Image.from_raw raw
  | .audio => Audio.from_raw raw
  | .video => Video.from_raw raw
  | .file => File.from_raw raw
  | .author => Author.from_raw raw

/-- `STYLE_TYPE_MAP`, in source order. -/
def STYLE_TYPE_MAP : List (String × StyleKind) :=
  [("b", .bold), ("strong", .bold), ("i", .italic), ("em", .italic),
   ("u", .underline), ("ins", .underline), ("s", .strikethrough),
   ("del", .strikethrough), ("spl", .spoiler), ("code", .code),
   ("sup", .superscript), ("sub", .subscript), ("p", .paragraph)]

/-- `res.content = transform(elem.children)` on a freshly built `Message`. -/
def Message.withContent (e : Element) (cs : List Element) : Element :=
  match e with
  | .message q i f _ _ ext => .message q i f true cs ext
  | e => e

mutual

/-- `transform`: each sibling node is dispatched in order; the first failure
aborts the whole list (spec section 7). -/
def transform : List RawElement → Except String (List Element)
  | [] => .ok []
  | e :: es =>
    match transformOne e with
    | .error m => .error m
    | .ok el =>
      match transform es with
      | .error m => .error m
      | .ok rest => .ok (el :: rest)

/-- The dispatch on one node, in the source's `if`/`elif` order:
`ELEMENT_TYPE_MAP`, the anchor aliases `a`/`link`, `STYLE_TYPE_MAP`,
`br`/`newline`, `message`, `quote`, and the `Custom` fallback. -/
def transformOne : RawElement → Except String Element
  | .mk ty attrs children =>
    match lookupTab ELEMENT_TYPE_MAP ty with
    | some cls => clsFromRaw cls (.mk ty attrs children)
    | Option.none =>
      if ty = "a" ∨ ty = "link" then Link.from_raw (.mk ty attrs children)
      else
        match lookupTab STYLE_TYPE_MAP ty with
        | some k => Style.from_raw k (.mk ty attrs children)
        | Option.none =>
          if ty = "br" ∨ ty = "newline" then .ok (.style .br (.str "\n") [])
          else if ty = "message" then
            match children with
            | [] => .ok (Message.from_raw false (.mk ty attrs children))
            | _ :: _ =>
              match transform children with
              | .error m => .error m
              | .ok cs => .ok (Message.withContent (Message.from_raw false (.mk ty attrs children)) cs)
          else if ty = "quote" then
            match children with
            | [] => .ok (Message.from_raw true (.mk ty attrs children))
            | _ :: _ =>
              match transform children with
              | .error m => .error m
              | .ok cs => .ok (Message.withContent (Message.from_raw true (.mk ty attrs children)) cs)
          else
            match transform children with
            | .error m => .error m
            | .ok cs => .ok (.custom ty attrs true cs)

end

/-- Python `key.startswith("_")`: the first character is an underscore. -/
def underscoreKey (s : String) : Bool :=
  match s.data with
  | c :: _ => c = '_'
  | [] => false

/-- The `_attr` helper shared verbatim by `Element.__str__` and
`Custom.__str__`: boolean true gives the bare key, boolean false `no-` plus
the key, a number the unquoted `key=value`, anything else the quoted,
escaped string form (`str(None)` is `"None"`). -/
def attrStr (key : String) (value : Val) : String :=
  match value with
  | .bool true => key
  | .bool false => "no-" ++ key
  | .int n => key ++ "=" ++ toString n
  | v => key ++ "=\"" ++ escape (pyStr v) ++ "\""

/-- The default `Element.__str__` body: every entry of the instance
dictionary whose key does not start with an underscore is rendered by
`_attr`, joined with single spaces, inside `<tag ... />`.  There is no
filtering of `None` values in the source. -/
def defaultStr (ty : String) (vars : List (String × Val)) : String :=
  "<" ++ ty ++ " "
    ++ String.intercalate " "
      ((vars.filter (fun p => !underscoreKey p.1)).map (fun p => attrStr p.1 p.2))
    ++ " />"

/-- The fixed micro-template of each style wrapper's `__str__`; `Br` ignores
its text.  The source applies `escape` to the `text` field, which is a string
for every input the style constructors receive; `pyStr` totalizes the model
on non-string values. -/
def styleRender (k : StyleKind) (t : Val) : String :=
  match k with
  | .bold => "<b>" ++ escape (pyStr t) ++ "</b>"
  | .italic => "<i>" ++ escape (pyStr t) ++ "</i>"
  | .underline => "<u>" ++ escape (pyStr t) ++ "</u>"
  | .strikethrough => "<s>" ++ escape (pyStr t) ++ "</s>"
  | .spoiler => "<spl>" ++ escape (pyStr t) ++ "</spl>"
  | .code => "<code>" ++ escape (pyStr t) ++ "</code>"
  | .superscript => "<sup>" ++ escape (pyStr t) ++ "</sup>"
  | .subscript => "<sub>" ++ escape (pyStr t) ++ "</sub>"
  | .br => "<br/>"
  | .paragraph => "<p>" ++ escape (pyStr t) ++ "</p>"

mutual

/-- `str(element)`: each variant's `__str__`.  Variants without an override
use the default renderer over their instance dictionary (dataclass fields in
declaration order, then extension attributes); `Image.get_type` is `"img"`.
`Message.__str__` emits `id` only when truthy and `forward` as a bare word
when truthy, and self-closes exactly when `content` is `None` or empty;
`Link` self-closes when `display` is falsy; `Raw` is emitted verbatim. -/
def strElement : Element → String
  | .text t _ => escape (pyStr t)
  | .atE i n r ty ext =>
    defaultStr "at" ([("id", i), ("name", n), ("role", r), ("type", ty)] ++ ext)
  | .sharp i n ext => defaultStr "sharp" ([("id", i), ("name", n)] ++ ext)
  | .link u d _ =>
    if d.truthy then
      "<a href=\"" ++ escape (pyStr u) ++ "\">" ++ escape (pyStr d) ++ "</a>"
    else "<a href=\"" ++ escape (pyStr u) ++ "\"/>"
  | .resource s c t ext =>
    defaultStr "resource" ([("src", s), ("cache", c), ("timeout", t)] ++ ext)
  | .img s c t w h ext =>
    defaultStr "img"
      ([("src", s), ("cache", c), ("timeout", t), ("width", w), ("height", h)] ++ ext)
  | .audio s c t ext =>
    defaultStr "audio" ([("src", s), ("cache", c), ("timeout", t)] ++ ext)
  | .video s c t ext =>
    defaultStr "video" ([("src", s), ("cache", c), ("timeout", t)] ++ ext)
  | .file s c t ext =>
    defaultStr "file" ([("src", s), ("cache", c), ("timeout", t)] ++ ext)
  | .style k t _ => styleRender k t
  | .message q i f present content _ =>
    let ty := if q then "quote" else "message"
    let attr := (if i.truthy then ["id=\"" ++ escape (pyStr i) ++ "\""] else [])
      ++ (if f.truthy then ["forward"] else [])
    if present && !content.isEmpty then
      "<" ++ ty ++ " " ++ String.intercalate " " attr ++ ">"
        ++ strElements content ++ "</" ++ ty ++ ">"
    else "<" ++ ty ++ " " ++ String.intercalate " " attr ++ " />"
  | .author i n a ext =>
    defaultStr "author" ([("id", i), ("nickname", n), ("avatar", a)] ++ ext)
  | .custom ty attrs present children =>
    let as :=
      String.intercalate " "
        ((attrs.filter (fun p => !underscoreKey p.1)).map (fun p => attrStr p.1 p.2))
    if present && !children.isEmpty then
      "<" ++ ty ++ " " ++ as ++ ">" ++ strElements children ++ "</" ++ ty ++ ">"
    else "<" ++ ty ++ " " ++ as ++ " />"
  | .raw c => pyStr c

/-- `"".join(str(e) for e in content)`: the children concatenated in order
with no separator. -/
def strElements : List Element → String
  | [] => ""
  | e :: es => strElement e ++ strElements es

end

/-- The extension attributes of an element (the instance dictionary beyond
the dataclass fields); `Custom.attrs` is a fixed field, not an extension
map, and `Raw` has none. -/
def Element.extMap : Element → List (String × Val)
  | .text _ ext => ext
  | .atE _ _ _ _ ext => ext
  | .sharp _ _ ext => ext
  | .link _ _ ext => ext
  | .resource _ _ _ ext => ext
  | .img _ _ _ _ _ ext => ext
  | .audio _ _ _ ext => ext
  | .video _ _ _ ext => ext
  | .file _ _ _ ext => ext
  | .style _ _ ext => ext
  | .message _ _ _ _ _ ext => ext
  | .author _ _ _ ext => ext
  | .custom _ _ _ _ => []
  | .raw _ => []

/-- Whether the element is the `Custom` fallback variant. -/
def Element.isCustom : Element → Bool
  | .custom _ _ _ _ => true
  | _ => false

/-- Whether the element is a `Bold` style wrapper. -/
def Element.isBold : Element → Bool
  | .style .bold _ _ => true
  | _ => false

/-- The nested element list of a container: `Message.content` or
`Custom.children` (empty for every other variant). -/
def Element.contentList : Element → List Element
  | .message _ _ _ _ content _ => content
  | .custom _ _ _ children => children
  | _ => []

/-- The dataclass field names of the class a table entry constructs. -/
def ElemCls.fieldNames : ElemCls → List String
  | .text => textFields
  | .atE => atFields
  | .sharp => sharpFields
  | .img => imageFields
  | .audio => resourceFields
  | .video => resourceFields
  | .file => resourceFields
  | .author => authorFields

/-- Every tag recognized before the `Custom` fallback, in dispatch order. -/
def recognizedTags : List String :=
  ELEMENT_TYPE_MAP.map Prod.fst ++ ["a", "link"] ++ STYLE_TYPE_MAP.map Prod.fst
    ++ ["br", "newline", "message", "quote"]

/-! Helper lemmas about the dictionary primitives and the dispatch tables. -/

theorem lookupTab_eq_none {α : Type} (m : List (String × α)) (k : String) :
    lookupTab m k = Option.none ↔ k ∉ m.map Prod.fst := by
  induction m with
  | nil => simp [lookupTab]
  | cons p ps ih =>
    by_cases h : p.1 = k
    · simp [lookupTab, h]
    · simp [lookupTab, h, ih, Ne.symm h]

theorem mem_of_lookupTab_some {α : Type} {m : List (String × α)} {k : String} {v : α}
    (h : lookupTab m k = some v) : k ∈ m.map Prod.fst := by
  by_contra hmem
  rw [(lookupTab_eq_none m k).mpr hmem] at h
  exact Option.noConfusion h

theorem extFilter_all (attrs : List (String × Val)) (fs : List String) :
    (extFilter attrs fs).all (fun p => !(fs.contains p.1)) = true := by
  rw [List.all_eq_true]
  intro p hp
  exact (List.mem_filter.mp hp).2

theorem setAttrExt_append (ext : List (String × Val)) (k : String) (v : Val)
    (h : ext.any (fun p => decide (p.1 = k)) = false) :
    setAttrExt ext k v = ext ++ [(k, v)] := by
  simp only [setAttrExt, h]
  simp

/-! Lemmas about the `setattr` loops of `Style.from_raw` and `Link.from_raw`:
with the unique keys of a Python dictionary, the loop appends the non-field
keys in order and the last occurrence of a field key wins. -/

theorem styleFold_no_text (l : List (String × Val)) (t : Val) (ext : List (String × Val))
    (hnd : (l.map Prod.fst).Nodup)
    (hnt : "text" ∉ l.map Prod.fst)
    (hext : ∀ p ∈ l, ext.any (fun q => decide (q.1 = p.1)) = false) :
    l.foldl styleStep (t, ext) = (t, ext ++ l) := by
  induction l generalizing ext with
  | nil => simp
  | cons p ps ih =>
    have hnd1 : (p.1 :: ps.map Prod.fst).Nodup := by simpa using hnd
    have hpps : p.1 ∉ ps.map Prod.fst := (List.nodup_cons.mp hnd1).1
    have hp : p.1 ≠ "text" := by
      intro h
      exact hnt (by simp only [List.map_cons, List.mem_cons]; exact Or.inl h.symm)
    have hnt2 : "text" ∉ ps.map Prod.fst := by
      intro h
      exact hnt (by simp only [List.map_cons, List.mem_cons]; exact Or.inr h)
    have hstep : styleStep (t, ext) p = (t, ext ++ [p]) := by
      simp only [styleStep, if_neg hp]
      rw [setAttrExt_append _ _ _ (hext p (by simp))]
    have hext2 : ∀ q ∈ ps, (ext ++ [p]).any (fun r => decide (r.1 = q.1)) = false := by
      intro q hq
      have h1 : ext.any (fun r => decide (r.1 = q.1)) = false :=
        hext q (List.mem_cons_of_mem _ hq)
      have h2 : ¬ p.1 = q.1 := by
        intro h
        exact hpps (h ▸ List.mem_map_of_mem Prod.fst hq)
      simp [List.any_append, h1, h2]
    rw [List.foldl_cons, hstep, ih (ext ++ [p]) (List.Nodup.of_cons hnd1) hnt2 hext2,
      List.append_assoc]
    simp

theorem styleFold_text (l : List (String × Val)) (t v : Val) (ext : List (String × Val))
    (hnd : (l.map Prod.fst).Nodup)
    (hv : lookupTab l "text" = some v)
    (hext : ∀ p ∈ l, ext.any (fun q => decide (q.1 = p.1)) = false) :
    l.foldl styleStep (t, ext) = (v, ext ++ l.filter (fun p => !(p.1 == "text"))) := by
  induction l generalizing ext t with
  | nil => exact absurd hv (by simp [lookupTab])
  | cons p ps ih =>
    have hnd1 : (p.1 :: ps.map Prod.fst).Nodup := by simpa using hnd
    have hpps : p.1 ∉ ps.map Prod.fst := (List.nodup_cons.mp hnd1).1
    by_cases hp : p.1 = "text"
    · have hv2 : v = p.2 := by
        rw [lookupTab, if_pos hp] at hv
        exact (Option.some.injEq _ _ ▸ hv).symm
      have hnt2 : "text" ∉ ps.map Prod.fst := hp ▸ hpps
      have hstep : styleStep (t, ext) p = (p.2, ext) := by
        simp only [styleStep, if_pos hp]
      have hexts : ∀ q ∈ ps, ext.any (fun r => decide (r.1 = q.1)) = false := fun q hq =>
        hext q (List.mem_cons_of_mem _ hq)
      have hfil : ps.filter (fun p => !(p.1 == "text")) = ps := by
        rw [List.filter_eq_self]
        intro q hq
        simp only [Bool.not_eq_true', beq_eq_false_iff_ne, ne_eq]
        intro h
        exact hnt2 (h ▸ List.mem_map_of_mem Prod.fst hq)
      rw [List.foldl_cons, hstep, styleFold_no_text ps p.2 ext (List.Nodup.of_cons hnd1) hnt2 hexts,
        hv2, List.filter_cons_of_neg (by simp [hp]), hfil]
    · have hv2 : lookupTab ps "text" = some v := by
        rwa [lookupTab, if_neg hp] at hv
      have hstep : styleStep (t, ext) p = (t, ext ++ [p]) := by
        simp only [styleStep, if_neg hp]
        rw [setAttrExt_append _ _ _ (hext p (by simp))]
      have hext2 : ∀ q ∈ ps, (ext ++ [p]).any (fun r => decide (r.1 = q.1)) = false := by
        intro q hq
        have h1 : ext.any (fun r => decide (r.1 = q.1)) = false :=
          hext q (List.mem_cons_of_mem _ hq)
        have h2 : ¬ p.1 = q.1 := by
          intro h
          exact hpps (h ▸ List.mem_map_of_mem Prod.fst hq)
        simp [List.any_append, h1, h2]
      rw [List.foldl_cons, hstep, ih t (ext ++ [p]) (List.Nodup.of_cons hnd1) hv2 hext2,
        List.filter_cons_of_pos (by simp [hp]), List.append_assoc]
      simp

theorem linkFold_plain (l : List (String × Val)) (u d : Val) (ext : List (String × Val))
    (hnd : (l.map Prod.fst).Nodup)
    (hnu : "url" ∉ l.map Prod.fst)
    (hndis : "display" ∉ l.map Prod.fst)
    (hext : ∀ p ∈ l, ext.any (fun q => decide (q.1 = p.1)) = false) :
    l.foldl linkStep (u, d, ext) = (u, d, ext ++ l.filter (fun p => !(p.1 == "href"))) := by
  induction l generalizing ext with
  | nil => simp
  | cons p ps ih =>
    have hnd1 : (p.1 :: ps.map Prod.fst).Nodup := by simpa using hnd
    have hpps : p.1 ∉ ps.map Prod.fst := (List.nodup_cons.mp hnd1).1
    have hpu : p.1 ≠ "url" := by
      intro h
      exact hnu (by simp only [List.map_cons, List.mem_cons]; exact Or.inl h.symm)
    have hpd : p.1 ≠ "display" := by
      intro h
      exact hndis (by simp only [List.map_cons, List.mem_cons]; exact Or.inl h.symm)
    have hnu2 : "url" ∉ ps.map Prod.fst := by
      intro h
      exact hnu (by simp only [List.map_cons, List.mem_cons]; exact Or.inr h)
    have hndis2 : "display" ∉ ps.map Prod.fst := by
      intro h
      exact hndis (by simp only [List.map_cons, List.mem_cons]; exact Or.inr h)
    by_cases hph : p.1 = "href"
    · have hstep : linkStep (u, d, ext) p = (u, d, ext) := by
        simp only [linkStep, if_pos hph]
      have hexts : ∀ q ∈ ps, ext.any (fun r => decide (r.1 = q.1)) = false := fun q hq =>
        hext q (List.mem_cons_of_mem _ hq)
      rw [List.foldl_cons, hstep, ih ext (List.Nodup.of_cons hnd1) hnu2 hndis2 hexts,
        List.filter_cons_of_neg (by simp [hph])]
    · have hstep : linkStep (u, d, ext) p = (u, d, ext ++ [p]) := by
        simp only [linkStep, if_neg hph, if_neg hpu, if_neg hpd]
        rw [setAttrExt_append _ _ _ (hext p (by simp))]
      have hext2 : ∀ q ∈ ps, (ext ++ [p]).any (fun r => decide (r.1 = q.1)) = false := by
        intro q hq
        have h1 : ext.any (fun r => decide (r.1 = q.1)) = false :=
          hext q (List.mem_cons_of_mem _ hq)
        have h2 : ¬ p.1 = q.1 := by
          intro h
          exact hpps (h ▸ List.mem_map_of_mem Prod.fst hq)
        simp [List.any_append, h1, h2]
      rw [List.foldl_cons, hstep, ih (ext ++ [p]) (List.Nodup.of_cons hnd1) hnu2 hndis2 hext2,
        List.filter_cons_of_pos (by simp [hph]), List.append_assoc]
      simp

/-! Shape lemmas: what each deserialization path can produce. -/

theorem clsFromRaw_ext (cls : ElemCls) (raw : RawElement) (e : Element)
    (h : clsFromRaw cls raw = .ok e) :
    e.isCustom = false ∧ e.extMap = extFilter raw.attrs cls.fieldNames := by
  cases cls <;>
    simp only [clsFromRaw, Text.from_raw, At.from_raw, Sharp.from_raw, Image.from_raw,
      Audio.from_raw, Video.from_raw, File.from_raw, Author.from_raw] at h <;>
    (try split at h) <;>
    cases h <;>
    simp [Element.isCustom, Element.extMap, ElemCls.fieldNames]

theorem linkFromRaw_shape (raw : RawElement) (e : Element)
    (h : Link.from_raw raw = .ok e) : ∃ u d ext, e = .link u d ext := by
  simp only [Link.from_raw] at h
  split at h
  · cases h
  · split at h
    · cases h
    · cases h
      exact ⟨_, _, _, rfl⟩

theorem styleFromRaw_shape (k : StyleKind) (raw : RawElement) (e : Element)
    (h : Style.from_raw k raw = .ok e) : ∃ t ext, e = .style k t ext := by
  simp only [Style.from_raw] at h
  split at h
  · cases h
  · split at h
    · cases h
      exact ⟨_, _, rfl⟩
    · cases h

/-! Dispatch lemmas: where the `if`/`elif` chain of `transform` sends each
class of tags. -/

theorem element_dispatch (ty : String) (cls : ElemCls) (attrs : List (String × Val))
    (children : List RawElement) (h : lookupTab ELEMENT_TYPE_MAP ty = some cls) :
    transformOne (.mk ty attrs children) = clsFromRaw cls (.mk ty attrs children) := by
  have hm : ty ∈ ELEMENT_TYPE_MAP.map Prod.fst := mem_of_lookupTab_some h
  simp only [ELEMENT_TYPE_MAP, List.map_cons, List.mem_cons, List.map_nil,
    List.not_mem_nil, or_false] at hm
  rcases hm with rfl | rfl | rfl | rfl | rfl | rfl | rfl | rfl <;>
    (injection h with h; subst h; rfl)

theorem link_dispatch (ty : String) (attrs : List (String × Val))
    (children : List RawElement) (h : ty = "a" ∨ ty = "link") :
    transformOne (.mk ty attrs children) = Link.from_raw (.mk ty attrs children) := by
  rcases h with rfl | rfl <;> rfl

theorem style_dispatch (ty : String) (k : StyleKind) (attrs : List (String × Val))
    (children : List RawElement) (h : lookupTab STYLE_TYPE_MAP ty = some k) :
    transformOne (.mk ty attrs children) = Style.from_raw k (.mk ty attrs children) := by
  have hm : ty ∈ STYLE_TYPE_MAP.map Prod.fst := mem_of_lookupTab_some h
  simp only [STYLE_TYPE_MAP, List.map_cons, List.mem_cons, List.map_nil,
    List.not_mem_nil, or_false] at hm
  rcases hm with rfl | rfl | rfl | rfl | rfl | rfl | rfl | rfl | rfl | rfl | rfl | rfl | rfl <;>
    (injection h with h; subst h; rfl)

theorem intercalate_singleton (a : String) : String.intercalate " " [a] = a := rfl

theorem message_dispatch (ty : String) (q : Bool) (attrs : List (String × Val))
    (children : List RawElement)
    (h : (ty = "message" ∧ q = false) ∨ (ty = "quote" ∧ q = true)) :
    transformOne (.mk ty attrs children)
      = match children with
        | [] => .ok (Message.from_raw q (.mk ty attrs children))
        | _ :: _ =>
          match transform children with
          | .error m => .error m
          | .ok cs => .ok (Message.withContent (Message.from_raw q (.mk ty attrs children)) cs) := by
  rcases h with ⟨rfl, rfl⟩ | ⟨rfl, rfl⟩ <;> rfl

theorem not_mem_parts (ty : String) (hne : ty ∉ recognizedTags) :
    lookupTab ELEMENT_TYPE_MAP ty = Option.none
  ∧ ¬(ty = "a" ∨ ty = "link")
  ∧ lookupTab STYLE_TYPE_MAP ty = Option.none
  ∧ ¬(ty = "br" ∨ ty = "newline") ∧ ty ≠ "message" ∧ ty ≠ "quote" := by
  simp only [recognizedTags, List.mem_append, not_or, List.mem_cons, List.not_mem_nil,
    or_false] at hne
  obtain ⟨⟨⟨hE, hA⟩, hS⟩, hD⟩ := hne
  refine ⟨(lookupTab_eq_none _ _).mpr hE, ?_, (lookupTab_eq_none _ _).mpr hS, ?_, ?_, ?_⟩ <;>
    simp_all [not_or]

theorem custom_dispatch (ty : String) (attrs : List (String × Val))
    (children : List RawElement) (hne : ty ∉ recognizedTags) :
    transformOne (.mk ty attrs children)
      = match transform children with
        | .error m => .error m
        | .ok cs => .ok (.custom ty attrs true cs) := by
  obtain ⟨h1, ha, h2, hbr, hm, hq⟩ := not_mem_parts ty hne
  simp only [transformOne, h1, h2, if_neg ha, if_neg hbr, if_neg hm, if_neg hq]

/-! The claims. -/

/-- C1 (amended): `Resource.of` with zero content sources (no url, falsy
path, and raw/mime not both truthy) raises the invalid-arguments
`ValueError` naming the class and produces no element; but when more than
one source is supplied there is no failure: the `if`/`elif` chain picks the
first present source in the precedence url, then path, then raw-with-mime,
exactly as if it were the only one supplied. -/
theorem C1_amended (tag : ResTag) (path0 : Option String) (raw0 : Option (List Nat))
    (mime0 : Option String) (extra : Option (List (String × Val))) (cache : Option Bool)
    (timeout : Option String) (u p : String)
    (path2 : Option String) (raw2 : Option (List Nat)) (mime2 : Option String)
    (hz : optStrTruthy path0 = false)
    (hrm : bytesTruthy raw0 = false ∨ optStrTruthy mime0 = false)
    (hp : p ≠ "") :
    Resource.of tag Option.none path0 raw0 mime0 extra cache timeout
      = .error ("<class \x27satori.element." ++ tag.clsName
        ++ "\x27> need at least one of url, path and raw")
  ∧ Resource.of tag (some u) path2 raw2 mime2 extra cache timeout
      = Resource.of tag (some u) Option.none Option.none Option.none Option.none cache timeout
  ∧ Resource.of tag Option.none (some p) raw2 mime2 extra cache timeout
      = Resource.of tag Option.none (some p) Option.none Option.none Option.none cache timeout := by
  refine ⟨?_, rfl, ?_⟩
  · simp only [Resource.of, hz, Bool.false_eq_true, if_false]
    rcases hrm with h | h <;> simp [h]
  · have h : optStrTruthy (some p) = true := by simp [optStrTruthy, hp]
    simp only [Resource.of, h, if_true]

/-- C1 counterexample: a call supplying both a url and a path does not fail
as the claim states; it constructs an element whose `src` is the url. -/
theorem C1_counterexample :
    Resource.of .image (some "u") (some "p") Option.none Option.none Option.none Option.none
        Option.none
      = .ok (.img (.str "u") Val.null Val.null Val.null Val.null []) := rfl

/-- C1 witness: the amended claim at concrete arguments. -/
theorem C1_witness :
    Resource.of .image Option.none Option.none (some [1]) Option.none Option.none Option.none
        Option.none
      = .error "<class \x27satori.element.Image\x27> need at least one of url, path and raw"
  ∧ Resource.of .image (some "u") (some "x") (some [1]) (some "m") Option.none Option.none
        Option.none
      = Resource.of .image (some "u") Option.none Option.none Option.none Option.none Option.none
        Option.none
  ∧ Resource.of .image Option.none (some "/p") (some [1]) (some "m") Option.none Option.none
        Option.none
      = Resource.of .image Option.none (some "/p") Option.none Option.none Option.none Option.none
        Option.none :=
  C1_amended .image Option.none (some [1]) Option.none Option.none Option.none Option.none
    "u" "/p" (some "x") (some [1]) (some "m") rfl (Or.inr rfl) (by decide)

/-- C2 (code bug): rendering `At.all()` does not yield the claimed
`<at type="all" />`; the base renderer has no `None` filter, so the `None`
defaults of `id`, `name` and `role` are serialized as `id="None"` etc. -/
theorem C2_code_eval :
    strElement (At.all false) = "<at id=\"None\" name=\"None\" role=\"None\" type=\"all\" />"
  ∧ (strElement (At.all false) == "<at type=\"all\" />") = false := by
  have h : strElement (At.all false)
      = "<at id=\"None\" name=\"None\" role=\"None\" type=\"all\" />" := by
    simp only [strElement, At.all]; decide
  exact ⟨h, by rw [h]; decide⟩

/-- C3 (amended): for the variants deserialized through the generic
`Element.from_raw` the extension map never contains a fixed-field key; but
the overriding `Style.from_raw` and `Link.from_raw` apply every (resp. every
non-`href`) node attribute by `setattr` after construction, so node
attributes named `text` (resp. `url`/`display`) overwrite the fixed field
derived by the construction rule instead of being kept out of it. -/
theorem C3_amended (raw : RawElement) (cls : ElemCls) (e : Element)
    (h : clsFromRaw cls raw = .ok e) :
    e.extMap.all (fun p => !(cls.fieldNames.contains p.1)) = true
  ∧ Style.from_raw .italic (.mk "i" [("text", .str "n"), ("x", .int 1)]
      [.mk "text" [("text", .str "c")] []])
      = .ok (.style .italic (.str "n") [("x", .int 1)])
  ∧ Link.from_raw (.mk "a" [("href", .str "h"), ("url", .str "u2"), ("q", .str "z")] [])
      = .ok (.link (.str "u2") Val.null [("q", .str "z")]) := by
  refine ⟨?_, rfl, rfl⟩
  rw [(clsFromRaw_ext cls raw e h).2]
  exact extFilter_all _ _

/-- C3 counterexample: a style node carrying a `text` attribute has its
fixed `text` field (derived from the first child as `"hi"`) overwritten by
the extension-attribute pass, contradicting the claimed precedence. -/
theorem C3_counterexample :
    transform [.mk "b" [("text", .str "override")] [.mk "text" [("text", .str "hi")] []]]
      = .ok [.style .bold (.str "override") []]
  ∧ (Val.str "override" == Val.str "hi") = false := ⟨rfl, by decide⟩

/-- C3 witness: the amended claim at a concrete `at` node. -/
theorem C3_witness :
    (Element.atE (.str "1") Val.null Val.null Val.null [("z", Val.int 2)]).extMap.all
      (fun p => !(ElemCls.atE.fieldNames.contains p.1)) = true :=
  (C3_amended (.mk "at" [("id", .str "1"), ("z", .int 2)] []) .atE
    (.atE (.str "1") Val.null Val.null Val.null [("z", .int 2)]) rfl).1

/-- C4 (amended): for every node whose tag is in the style table, transform
fails with `IndexError` when the node has no children; otherwise the element
text comes from the first child's `text` attribute and every node attribute
is then applied by `setattr`: keys other than `text` land, in order, in the
extension map (and only those), while a node attribute named `text`
overwrites the text derived from the child. -/
theorem C4_amended (ty : String) (k : StyleKind) (attrs : List (String × Val))
    (c : RawElement) (cs : List RawElement) (t v : Val)
    (hk : lookupTab STYLE_TYPE_MAP ty = some k)
    (hnd : (attrs.map Prod.fst).Nodup) :
    transformOne (.mk ty attrs []) = .error "IndexError: list index out of range"
  ∧ (lookupTab c.attrs "text" = some t → "text" ∉ attrs.map Prod.fst →
      transformOne (.mk ty attrs (c :: cs)) = .ok (.style k t attrs))
  ∧ (lookupTab c.attrs "text" = some t → lookupTab attrs "text" = some v →
      transformOne (.mk ty attrs (c :: cs))
        = .ok (.style k v (attrs.filter (fun p => !(p.1 == "text"))))) := by
  refine ⟨?_, ?_, ?_⟩
  · rw [style_dispatch ty k attrs [] hk]
    rfl
  · intro hct hnt
    obtain ⟨cty, cattrs, cch⟩ := c
    simp only [RawElement.attrs] at hct
    rw [style_dispatch ty k attrs (.mk cty cattrs cch :: cs) hk]
    simp only [Style.from_raw, RawElement.attrs, RawElement.children, hct]
    rw [styleFold_no_text attrs t [] hnd hnt (by intro p hp; rfl)]
    simp
  · intro hct hv
    obtain ⟨cty, cattrs, cch⟩ := c
    simp only [RawElement.attrs] at hct
    rw [style_dispatch ty k attrs (.mk cty cattrs cch :: cs) hk]
    simp only [Style.from_raw, RawElement.attrs, RawElement.children, hct]
    rw [styleFold_text attrs t v [] hnd hv (by intro p hp; rfl)]
    simp

/-- C4 counterexample: a `p` node with a `text` attribute does not keep the
text constructed from its first child (`"c"`); the attribute value `"o"`
wins. -/
theorem C4_counterexample :
    transform [.mk "p" [("text", .str "o")] [.mk "text" [("text", .str "c")] []]]
      = .ok [.style .paragraph (.str "o") []]
  ∧ (Val.str "o" == Val.str "c") = false := ⟨rfl, by decide⟩

/-- C4 witness: the amended claim at a concrete `code` node. -/
theorem C4_witness :
    transformOne (.mk "code" [("x", Val.int 1)] [.mk "text" [("text", Val.str "hi")] []])
      = .ok (.style .code (.str "hi") [("x", Val.int 1)]) :=
  (C4_amended "code" .code [("x", Val.int 1)] (.mk "text" [("text", Val.str "hi")] [])
    [] (.str "hi") Val.null rfl (by decide)).2.1 rfl (by decide)

/-- C5 (confirmed): a node tagged `strong` that transform accepts always
yields a `Bold` style element, never `Custom`; and, for every accepted node,
the result is the `Custom` fallback exactly when its tag is recognized by
none of the dispatch tables (`ELEMENT_TYPE_MAP`, the `a`/`link` aliases,
`STYLE_TYPE_MAP`, `br`/`newline`, `message`, `quote`). -/
theorem C5_dispatch (raw : RawElement) (e : Element) (he : transformOne raw = .ok e) :
    (raw.type = "strong" → e.isBold = true)
  ∧ (e.isCustom = true ↔ raw.type ∉ recognizedTags) := by
  obtain ⟨ty, attrs, children⟩ := raw
  constructor
  · intro h
    simp only [RawElement.type] at h
    subst h
    have he' : Style.from_raw .bold (.mk "strong" attrs children) = .ok e := he
    obtain ⟨t, ext, rfl⟩ := styleFromRaw_shape _ _ _ he'
    rfl
  · simp only [RawElement.type]
    cases h1 : lookupTab ELEMENT_TYPE_MAP ty with
    | some cls =>
      rw [element_dispatch ty cls attrs children h1] at he
      have hnc := (clsFromRaw_ext cls _ e he).1
      have hmem : ty ∈ recognizedTags := by
        simp only [recognizedTags, List.mem_append]
        exact Or.inl (Or.inl (Or.inl (mem_of_lookupTab_some h1)))
      simp [hnc, hmem]
    | none =>
      by_cases ha : ty = "a" ∨ ty = "link"
      · rw [link_dispatch ty attrs children ha] at he
        obtain ⟨u, d, ext, rfl⟩ := linkFromRaw_shape _ _ he
        have hmem : ty ∈ recognizedTags := by
          rcases ha with rfl | rfl <;> decide
        simp [Element.isCustom, hmem]
      · cases h2 : lookupTab STYLE_TYPE_MAP ty with
        | some k =>
          rw [style_dispatch ty k attrs children h2] at he
          obtain ⟨t, ext, rfl⟩ := styleFromRaw_shape _ _ _ he
          have hmem : ty ∈ recognizedTags := by
            simp only [recognizedTags, List.mem_append]
            exact Or.inl (Or.inr (mem_of_lookupTab_some h2))
          simp [Element.isCustom, hmem]
        | none =>
          by_cases hbr : ty = "br" ∨ ty = "newline"
          · have hmem : ty ∈ recognizedTags := by
              rcases hbr with h | h <;> subst h <;> decide
            have he' : (Except.ok (Element.style .br (.str "\n") []) : Except String Element)
                = .ok e := by
              rcases hbr with rfl | rfl <;> exact he
            cases he'
            simp [Element.isCustom, hmem]
          · by_cases hm : ty = "message" ∨ ty = "quote"
            · have hmem : ty ∈ recognizedTags := by
                rcases hm with h | h <;> subst h <;> decide
              have hq : (ty = "message" ∧ (ty == "quote") = false)
                  ∨ (ty = "quote" ∧ (ty == "quote") = true) := by
                rcases hm with rfl | rfl <;> simp
              rw [message_dispatch ty (ty == "quote") attrs children hq] at he
              cases children with
              | nil =>
                cases he
                simp [Message.from_raw, Element.isCustom, hmem]
              | cons c cs =>
                cases htr : transform (c :: cs) with
                | error m => rw [htr] at he; cases he
                | ok cs2 =>
                  rw [htr] at he
                  cases he
                  simp [Message.withContent, Message.from_raw, Element.isCustom, hmem]
            · have hne : ty ∉ recognizedTags := by
                intro hmem
                simp only [recognizedTags, List.mem_append, List.mem_cons, List.not_mem_nil,
                  or_false] at hmem
                rcases hmem with ((hA | hB) | hC) | hD
                · exact (lookupTab_eq_none _ _).mp h1 hA
                · exact ha hB
                · exact (lookupTab_eq_none _ _).mp h2 hC
                · rcases hD with h | h | h | h
                  · exact hbr (Or.inl h)
                  · exact hbr (Or.inr h)
                  · exact hm (Or.inl h)
                  · exact hm (Or.inr h)
              rw [custom_dispatch ty attrs children hne] at he
              cases htr : transform children with
              | error m => rw [htr] at he; cases he
              | ok cs2 =>
                rw [htr] at he
                cases he
                simp [Element.isCustom, hne]

/-- C5 witness: the dispatch claim at a concrete `strong` node. -/
theorem C5_witness :
    ((RawElement.mk "strong" [] [.mk "text" [("text", Val.str "hi")] []]).type = "strong"
      → (Element.style .bold (.str "hi") []).isBold = true)
  ∧ ((Element.style .bold (.str "hi") []).isCustom = true
      ↔ (RawElement.mk "strong" [] [.mk "text" [("text", Val.str "hi")] []]).type
          ∉ recognizedTags) :=
  C5_dispatch (.mk "strong" [] [.mk "text" [("text", Val.str "hi")] []])
    (.style .bold (.str "hi") []) rfl

/-- C6 (confirmed): in both the default renderer and the `Custom` renderer,
a boolean-true attribute serializes as the bare key, boolean-false as
`no-` plus the key, an integer as unquoted `key=value`, and anything else as
`key="..."` with the escaped string form of the value. -/
theorem C6_attr_serialization (ty k : String) (n : Int) (s : String)
    (hk : underscoreKey k = false) :
    strElement (.custom ty [(k, .bool true)] false []) = "<" ++ ty ++ " " ++ k ++ " />"
  ∧ strElement (.custom ty [(k, .bool false)] false [])
      = "<" ++ ty ++ " " ++ ("no-" ++ k) ++ " />"
  ∧ strElement (.custom ty [(k, .int n)] false [])
      = "<" ++ ty ++ " " ++ (k ++ "=" ++ toString n) ++ " />"
  ∧ strElement (.custom ty [(k, .str s)] false [])
      = "<" ++ ty ++ " " ++ (k ++ "=\"" ++ escape s ++ "\"") ++ " />"
  ∧ strElement (.atE Val.null Val.null Val.null Val.null [("x", .bool true)])
      = "<at id=\"None\" name=\"None\" role=\"None\" type=\"None\" x />"
  ∧ strElement (.atE Val.null Val.null Val.null Val.null [("x", .bool false)])
      = "<at id=\"None\" name=\"None\" role=\"None\" type=\"None\" no-x />"
  ∧ strElement (.atE Val.null Val.null Val.null Val.null [("x", .int 7)])
      = "<at id=\"None\" name=\"None\" role=\"None\" type=\"None\" x=7 />"
  ∧ strElement (.atE Val.null Val.null Val.null Val.null [("x", .str "a&b")])
      = "<at id=\"None\" name=\"None\" role=\"None\" type=\"None\" x=\"a&amp;b\" />" := by
  refine ⟨?_, ?_, ?_, ?_, ?_, ?_, ?_, ?_⟩ <;>
    first
    | (simp only [strElement, At.all]; decide)
    | (simp only [strElement, Bool.false_and, Bool.false_eq_true, if_false,
        List.filter_cons, hk, Bool.not_false, if_true, List.filter_nil, List.map_cons,
        List.map_nil, intercalate_singleton, attrStr, pyStr])

/-- C6 witness: the serialization claim at a concrete key. -/
theorem C6_witness :
    strElement (.custom "foo" [("y", Val.bool true)] false [])
      = "<" ++ "foo" ++ " " ++ "y" ++ " />" :=
  (C6_attr_serialization "foo" "y" 0 "" rfl).1

/-- C7 (amended): `Message`/`Quote` self-close exactly when `content` is
`None` or empty, and otherwise concatenate the children's renderings in
order with no separator between the open and close tags; a truthy (non-empty,
non-`None`) `id` renders as `id="..."` and a truthy `forward` as the bare
word `forward` (a falsy `id`, e.g. the empty string, is omitted). -/
theorem C7_amended (q : Bool) (i : String) (hi : i ≠ "") (e1 e2 : Element)
    (ext : List (String × Val)) :
    strElement (.message q (.str i) (.bool false) false [] ext)
      = "<" ++ (if q then "quote" else "message") ++ " " ++ ("id=\"" ++ escape i ++ "\"") ++ " />"
  ∧ strElement (.message q (.str i) (.bool true) true [e1, e2] ext)
      = "<" ++ (if q then "quote" else "message") ++ " "
          ++ ("id=\"" ++ escape i ++ "\"" ++ " " ++ "forward") ++ ">"
          ++ (strElement e1 ++ (strElement e2 ++ "")) ++ "</"
          ++ (if q then "quote" else "message") ++ ">"
  ∧ strElement (.message q Val.null Val.null true [] ext)
      = "<" ++ (if q then "quote" else "message") ++ " " ++ "" ++ " />"
  ∧ strElement (.message q Val.null Val.null false [] ext)
      = "<" ++ (if q then "quote" else "message") ++ " " ++ "" ++ " />" := by
  have ht : Val.truthy (.str i) = true := by simp [Val.truthy, hi]
  refine ⟨?_, ?_, ?_, ?_⟩ <;>
    simp only [strElement, strElements, ht, Val.truthy, if_true, if_false, Bool.false_eq_true,
      Bool.and_self, Bool.true_and, Bool.false_and, List.isEmpty_nil, List.isEmpty_cons,
      Bool.not_true, Bool.not_false, List.append_nil, String.intercalate,
      String.intercalate.go, List.singleton_append, String.append_empty, pyStr,
      ne_eq, bne_iff_ne, hi, not_false_eq_true, List.nil_append]

/-- C7 counterexample: a `Message` whose `id` is the empty string carries an
id attribute, yet the rendering omits it entirely (the source guards with
truthiness, not presence). -/
theorem C7_counterexample :
    strElement (.message false (.str "") Val.null false [] []) = "<message  />"
  ∧ (strElement (.message false (.str "") Val.null false [] [])
      == "<message id=\"\" />") = false := by
  have h : strElement (.message false (.str "") Val.null false [] []) = "<message  />" := by
    simp only [strElement]; decide
  exact ⟨h, by rw [h]; decide⟩

/-- C7 witness: the amended claim at concrete id, forward and children. -/
theorem C7_witness :
    strElement (.message false (Val.str "x") (Val.bool false) false [] [])
      = "<message id=\"x\" />"
  ∧ strElement (.message false (Val.str "x") (Val.bool true) true
      [.text (Val.str "a") [], .text (Val.str "b") []] [])
      = "<message id=\"x\" forward>ab</message>" := by
  have h := C7_amended false "x" (by decide) (.text (Val.str "a") []) (.text (Val.str "b") []) []
  have e1eq : strElement (.text (Val.str "a") []) = "a" := by simp only [strElement]; decide
  have e2eq : strElement (.text (Val.str "b") []) = "b" := by simp only [strElement]; decide
  refine ⟨by rw [h.1]; decide, ?_⟩
  rw [h.2.1, e1eq, e2eq]
  decide

/-- C8 (amended): an `a`/`link` node requires an `href` attribute and
transform fails with `KeyError` when it is absent; with no children the
display starts as `None`, while with a first child the display starts from
that child's `text` attribute (`KeyError` when the first child has none);
the `setattr` loop then applies every non-`href` attribute, so node
attributes named `url` or `display` overwrite the fixed fields (absent
those, the element is exactly the href url with the `None` or child-derived
display and the other attributes as extensions); a `Link` whose display is
falsy renders as the self-closing `<a href="escaped-url"/>`. -/
theorem C8_amended (ty : String) (attrs : List (String × Val)) (children : List RawElement)
    (c : RawElement) (cs : List RawElement) (u d t : Val) (ext : List (String × Val))
    (ha : ty = "a" ∨ ty = "link") :
    (lookupTab attrs "href" = Option.none →
      transformOne (.mk ty attrs children) = .error "KeyError: \x27href\x27")
  ∧ (lookupTab attrs "href" = some u → children = [] → (attrs.map Prod.fst).Nodup →
      "url" ∉ attrs.map Prod.fst → "display" ∉ attrs.map Prod.fst →
      transformOne (.mk ty attrs children)
        = .ok (.link u Val.null (attrs.filter (fun p => !(p.1 == "href")))))
  ∧ (lookupTab attrs "href" = some u → lookupTab c.attrs "text" = some t →
      (attrs.map Prod.fst).Nodup →
      "url" ∉ attrs.map Prod.fst → "display" ∉ attrs.map Prod.fst →
      transformOne (.mk ty attrs (c :: cs))
        = .ok (.link u t (attrs.filter (fun p => !(p.1 == "href")))))
  ∧ (lookupTab attrs "href" = some u → lookupTab c.attrs "text" = Option.none →
      transformOne (.mk ty attrs (c :: cs)) = .error "KeyError: \x27text\x27")
  ∧ (Val.truthy d = false →
      strElement (.link u d ext) = "<a href=\"" ++ escape (pyStr u) ++ "\"/>")
  ∧ transform [.mk "a" [("href", .str "https://x")] []]
      = .ok [.link (.str "https://x") Val.null []]
  ∧ strElement (.link (.str "https://x") Val.null []) = "<a href=\"https://x\"/>" := by
  refine ⟨?_, ?_, ?_, ?_, ?_, rfl, ?_⟩
  · intro hh
    rw [link_dispatch ty attrs children ha]
    simp only [Link.from_raw, RawElement.attrs, RawElement.children, hh]
  · intro hh hch hnd hnu hndis
    subst hch
    rw [link_dispatch ty attrs [] ha]
    simp only [Link.from_raw, RawElement.attrs, RawElement.children, hh]
    rw [linkFold_plain attrs u Val.null [] hnd hnu hndis (by intro p hp; rfl)]
    simp
  · intro hh hct hnd hnu hndis
    obtain ⟨cty, cattrs, cch⟩ := c
    simp only [RawElement.attrs] at hct
    rw [link_dispatch ty attrs (.mk cty cattrs cch :: cs) ha]
    simp only [Link.from_raw, RawElement.attrs, RawElement.children, hh, hct]
    rw [linkFold_plain attrs u t [] hnd hnu hndis (by intro p hp; rfl)]
    simp
  · intro hh hct
    obtain ⟨cty, cattrs, cch⟩ := c
    simp only [RawElement.attrs] at hct
    rw [link_dispatch ty attrs (.mk cty cattrs cch :: cs) ha]
    simp only [Link.from_raw, RawElement.attrs, RawElement.children, hh, hct]
  · intro hd
    simp only [strElement, hd, Bool.false_eq_true, if_false]
  · simp only [strElement]; decide

/-- C8 counterexample: an anchor node with no children but a `display`
attribute does not end with `display = None` as claimed; the attribute
overwrites the fixed field. -/
theorem C8_counterexample :
    transform [.mk "a" [("href", .str "h"), ("display", .str "d")] []]
      = .ok [.link (.str "h") (.str "d") []]
  ∧ (Val.str "d" == Val.null) = false := ⟨rfl, by decide⟩

/-- C8 witness: the amended claim at a concrete childless `link` node and at
a concrete `a` node whose first child supplies the display text. -/
theorem C8_witness :
    transformOne (.mk "link" [("href", Val.str "h"), ("z", Val.int 3)] [])
      = .ok (.link (.str "h") Val.null [("z", Val.int 3)])
  ∧ transformOne (.mk "a" [("href", Val.str "h")] [.mk "text" [("text", Val.str "dd")] []])
      = .ok (.link (.str "h") (.str "dd") []) :=
  ⟨(C8_amended "link" [("href", Val.str "h"), ("z", Val.int 3)] [] (.mk "x" [] []) []
      (Val.str "h") Val.null (Val.str "dd") [] (Or.inr rfl)).2.1 rfl rfl (by decide) (by decide)
      (by decide),
   (C8_amended "a" [("href", Val.str "h")] [] (.mk "text" [("text", Val.str "dd")] []) []
      (Val.str "h") Val.null (Val.str "dd") [] (Or.inl rfl)).2.2.1 rfl rfl (by decide) (by decide)
      (by decide)⟩

/-- C9 (amended): for every non-empty byte sequence and non-empty MIME
string, `Resource.of` from raw bytes (no url, no path) sets `src` to the
base64 `data:` URI `data:<mime>;base64,<b64encode(bytes)>`; empty bytes or
an empty MIME string are falsy in the `elif raw and mime` test and fall
through to the `ValueError` instead. -/
theorem C9_amended (bs : List Nat) (m : String) (cache : Option Bool) (timeout : Option String)
    (hb : bs ≠ []) (hm : m ≠ "") :
    Resource.of .resource Option.none Option.none (some bs) (some m) Option.none cache timeout
      = .ok (mkRes .resource (.str ("data:" ++ m ++ ";base64," ++ b64encode bs)) cache timeout) := by
  have h1 : bytesTruthy (some bs) = true := by simp [bytesTruthy, hb]
  have h2 : optStrTruthy (some m) = true := by simp [optStrTruthy, hm]
  simp only [Resource.of, optStrTruthy, Bool.false_eq_true, if_false, h1, h2, Bool.and_self,
    Bool.true_and, if_true, Option.getD]
  simp [hm]

/-- C9 counterexample: at the empty byte sequence the claim fails; the call
raises the construction `ValueError` instead of setting `src`. -/
theorem C9_counterexample :
    Resource.of .resource Option.none Option.none (some []) (some "image/png") Option.none
        Option.none Option.none
      = .error "<class \x27satori.element.Resource\x27> need at least one of url, path and raw" :=
  rfl

/-- C9 witness: the claim's own concrete scenario, bytes 0x01 0x02 with MIME
image/png. -/
theorem C9_witness :
    Resource.of .resource Option.none Option.none (some [1, 2]) (some "image/png") Option.none
        Option.none Option.none
      = .ok (.resource (.str "data:image/png;base64,AQI=") Val.null Val.null []) := by
  have h := C9_amended [1, 2] "image/png" Option.none Option.none (by decide) (by decide)
  rw [h]; rfl

/-- C10 (confirmed): whenever `transform` succeeds it returns exactly one
element per sibling node (equal lengths), and the container tags --
`message`, `quote` and the unknown tags routed to `Custom` -- absorb their
transformed children into that single element's nested content list rather
than into the sibling list. -/
theorem C10_lengths :
    (∀ es out, transform es = .ok out → out.length = es.length)
  ∧ (∀ ty attrs c cs e, (ty = "message" ∧ (ty == "quote") = false)
        ∨ (ty = "quote" ∧ (ty == "quote") = true) →
      transformOne (.mk ty attrs (c :: cs)) = .ok e →
      transform (c :: cs) = .ok e.contentList)
  ∧ (∀ ty attrs children e, ty ∉ recognizedTags →
      transformOne (.mk ty attrs children) = .ok e →
      transform children = .ok e.contentList) := by
  refine ⟨?_, ?_, ?_⟩
  · intro es
    induction es with
    | nil =>
      intro out h
      have h' : (Except.ok ([] : List Element) : Except String (List Element)) = .ok out := h
      cases h'
      rfl
    | cons e es ih =>
      intro out h
      simp only [transform] at h
      cases h1 : transformOne e with
      | error m => rw [h1] at h; cases h
      | ok el =>
        rw [h1] at h
        cases h2 : transform es with
        | error m => rw [h2] at h; cases h
        | ok rest =>
          rw [h2] at h
          cases h
          simp [ih rest h2]
  · intro ty attrs c cs e hq he
    rw [message_dispatch ty (ty == "quote") attrs (c :: cs) hq] at he
    cases htr : transform (c :: cs) with
    | error m => rw [htr] at he; cases he
    | ok cs2 =>
      rw [htr] at he
      cases he
      simp [Message.withContent, Message.from_raw, Element.contentList]
  · intro ty attrs children e hne he
    rw [custom_dispatch ty attrs children hne] at he
    cases htr : transform children with
    | error m => rw [htr] at he; cases he
    | ok cs2 =>
      rw [htr] at he
      cases he
      simp [Element.contentList]

/-- C10 witness: the length claim at a concrete two-node list. -/
theorem C10_witness :
    ([Element.style .br (Val.str "\n") [], Element.custom "foo" [] true []]
      : List Element).length
      = ([RawElement.mk "br" [] [], RawElement.mk "foo" [] []] : List RawElement).length :=
  C10_lengths.1 [.mk "br" [] [], .mk "foo" [] []]
    [.style .br (.str "\n") [], .custom "foo" [] true []] rfl
